import Mathlib

/-!
Shallow embedding of `src/rust-wasm/src/lib.rs` (an arbitrage scanner for
per-city market quotes).

Modelling conventions:
* `f64` values are modelled as exact rationals `ℚ`; rounding is abstracted
  away.  A second model (`FVal := Option ℚ`, with `none` playing the role of
  IEEE NaN) is used for the claims about NaN behaviour; its comparison
  operators return `false` whenever an operand is `none`, exactly as IEEE
  comparisons on NaN do.
* `u32` quantities are modelled as `ℕ`.
* The Rust code groups quotes in a `HashMap` and iterates over it in an
  unspecified order.  The model therefore takes the item iteration order as
  an explicit parameter `order : List String`; a real execution corresponds
  to some permutation of the distinct item keys.
* `Vec::sort_by(|a, b| b.roi.partial_cmp(&a.roi).unwrap())` is a stable sort
  that puts larger `roi` first; it is modelled by `List.mergeSort` (stable)
  with the boolean relation `roiDescLe`.
* The wasm-bindgen boundary (`serde_wasm_bindgen::from_value` / `to_value`)
  is modelled by an `Except String` input and an explicit encoder parameter.
-/

/-- Mirrors the Rust struct `TradeOpportunity`. -/
structure TradeOpportunity where
  item_id : String
  item_name : String
  buy_city : String
  sell_city : String
  buy_price : ℚ
  sell_price : ℚ
  quantity : ℕ
  profit : ℚ
  roi : ℚ
  taxes : ℚ
  transport_cost : ℚ
  deriving DecidableEq

/-- Mirrors the Rust struct `MarketData`. -/
structure MarketData where
  item_id : String
  item_name : String
  city : String
  buy_price : ℚ
  sell_price : ℚ
  quantity : ℕ
  deriving DecidableEq

/-- Mirrors the Rust struct `TradeScanner` (the two configured rates). -/
structure TradeScanner where
  market_tax : ℚ
  setup_fee : ℚ

/-- Mirrors `TradeScanner::new()`: market tax 4.5%, setup fee 1.5%. -/
def TradeScanner.new : TradeScanner :=
  { market_tax := 45 / 1000, setup_fee := 15 / 1000 }

/-- The distance `match` inside `estimate_transport_cost`: five listed
Caerleon pairs at 8 zones, everything else falls back to 12
("cross-royal city trades"). -/
def zone_distance (from_city to_city : String) : ℕ :=
  if (from_city = "Caerleon" ∧ to_city = "Bridgewatch") ∨
     (from_city = "Bridgewatch" ∧ to_city = "Caerleon") then 8
  else if (from_city = "Caerleon" ∧ to_city = "Lymhurst") ∨
     (from_city = "Lymhurst" ∧ to_city = "Caerleon") then 8
  else if (from_city = "Caerleon" ∧ to_city = "Martlock") ∨
     (from_city = "Martlock" ∧ to_city = "Caerleon") then 8
  else if (from_city = "Caerleon" ∧ to_city = "Fort Sterling") ∨
     (from_city = "Fort Sterling" ∧ to_city = "Caerleon") then 8
  else if (from_city = "Caerleon" ∧ to_city = "Thetford") ∨
     (from_city = "Thetford" ∧ to_city = "Caerleon") then 8
  else 12

/-- Mirrors `TradeScanner::estimate_transport_cost`:
`distance * 100 * max(quantity / 100, 1)`. -/
def TradeScanner.estimate_transport_cost (_s : TradeScanner)
    (from_city to_city : String) (quantity : ℚ) : ℚ :=
  let distance := zone_distance from_city to_city
  let weight_factor := max (quantity / 100) 1
  (distance : ℚ) * 100 * weight_factor

/-- Mirrors `TradeScanner::calculate_opportunity`. -/
def TradeScanner.calculate_opportunity (s : TradeScanner)
    (item_id item_name buy_city sell_city : String)
    (buy_price sell_price : ℚ) (quantity : ℕ) : TradeOpportunity :=
  let qty : ℚ := (quantity : ℚ)
  let buy_total := buy_price * qty
  let buy_taxes := buy_total * (s.market_tax + s.setup_fee)
  let transport_cost := s.estimate_transport_cost buy_city sell_city qty
  let total_cost := buy_total + buy_taxes + transport_cost
  let sell_total := sell_price * qty
  let sell_taxes := sell_total * (s.market_tax + s.setup_fee)
  let net_revenue := sell_total - sell_taxes
  let profit := net_revenue - total_cost
  let roi := if 0 < total_cost then (profit / total_cost) * 100 else 0
  { item_id := item_id, item_name := item_name,
    buy_city := buy_city, sell_city := sell_city,
    buy_price := buy_price, sell_price := sell_price,
    quantity := quantity, profit := profit, roi := roi,
    taxes := buy_taxes + sell_taxes, transport_cost := transport_cost }

/-- The per-item bucket built by the grouping loop: the quotes of `data`
with the given `item_id`, in input order (`Vec::push` preserves order). -/
def group (data : List MarketData) (item_id : String) : List MarketData :=
  data.filter fun d => d.item_id = item_id

/-- The distinct item keys of the grouping map (the set of keys of the
Rust `HashMap`, here in first-occurrence-last order; only its membership
matters, iteration order is a parameter). -/
def itemKeys (data : List MarketData) : List String :=
  (data.map (·.item_id)).dedup

/-- One iteration of the inner pair loop: the three `continue` guards
(same city, non-positive price on the used side, zero min quantity),
then `calculate_opportunity`. -/
def pairCandidate (s : TradeScanner) (item_id : String)
    (b sq : MarketData) : Option TradeOpportunity :=
  if b.city = sq.city then none
  else if b.buy_price ≤ 0 ∨ sq.sell_price ≤ 0 then none
  else if min b.quantity sq.quantity = 0 then none
  else some (s.calculate_opportunity item_id b.item_name b.city sq.city
      b.buy_price sq.sell_price (min b.quantity sq.quantity))

/-- All evaluated opportunities of one item group (the two nested loops
over `cities`). -/
def candidatesFor (s : TradeScanner) (data : List MarketData)
    (item_id : String) : List TradeOpportunity :=
  (group data item_id).flatMap fun b =>
    (group data item_id).filterMap fun sq => pairCandidate s item_id b sq

/-- All evaluated opportunities, iterating the item groups in the given
`order` (the unspecified `HashMap` iteration order). -/
def candidates (s : TradeScanner) (data : List MarketData)
    (order : List String) : List TradeOpportunity :=
  order.flatMap fun i => candidatesFor s data i

/-- The comparator of `opportunities.sort_by(|a, b| b.roi.partial_cmp(&a.roi).unwrap())`
as a boolean `le`: `a` may stay before `b` iff `b.roi ≤ a.roi` (descending). -/
def roiDescLe (a b : TradeOpportunity) : Bool :=
  decide (b.roi ≤ a.roi)

/-- The pure core of `scan_opportunities` after decoding: conditional push
of candidates with `roi >= min_roi`, stable sort by roi descending,
truncate to `max_results`. -/
def TradeScanner.scan (s : TradeScanner) (data : List MarketData)
    (order : List String) (min_roi : ℚ) (max_results : ℕ) :
    List TradeOpportunity :=
  let opportunities :=
    (candidates s data order).filter fun o => decide (min_roi ≤ o.roi)
  (opportunities.mergeSort roiDescLe).take max_results

/-- Mirrors the full `scan_opportunities` entry point including the
wasm boundary: a failed decode is reported before any computation, a
failed encode after it; `encode` stands for `serde_wasm_bindgen::to_value`. -/
def TradeScanner.scan_opportunities {ε : Type} (s : TradeScanner)
    (input : Except String (List MarketData)) (order : List String)
    (min_roi : ℚ) (max_results : ℕ)
    (encode : List TradeOpportunity → Except String ε) : Except String ε :=
  match input with
  | .error e => .error ("Failed to parse market data: " ++ e)
  | .ok data =>
    match encode (s.scan data order min_roi max_results) with
    | .error e => .error ("Failed to serialize results: " ++ e)
    | .ok v => .ok v

/-! ### NaN-aware model of the `f64` arithmetic (for the sorting-safety claim)

`FVal` is `ℚ` extended with `none` for IEEE NaN.  Arithmetic propagates
`none`; every comparison involving `none` is `false`, as with IEEE NaN.
Malformed input can carry NaN prices, so the quote prices of this model are
`FVal`-valued. -/

/-- An `f64` that may be NaN. -/
def FVal := Option ℚ
deriving DecidableEq

/-- A finite (non-NaN) float value. -/
def FVal.fin (q : ℚ) : FVal := some q

/-- NaN. -/
def FVal.nan : FVal := none

def fadd : FVal → FVal → FVal
  | some a, some b => some (a + b)
  | _, _ => none

def fsub : FVal → FVal → FVal
  | some a, some b => some (a - b)
  | _, _ => none

def fmul : FVal → FVal → FVal
  | some a, some b => some (a * b)
  | _, _ => none

/-- Division; a zero divisor is modelled as non-finite (it is never reached
under the positivity guard of `calculate_opportunity`). -/
def fdiv : FVal → FVal → FVal
  | some a, some b => if b = 0 then none else some (a / b)
  | _, _ => none

/-- IEEE `<=`: false whenever an operand is NaN. -/
def fle : FVal → FVal → Bool
  | some a, some b => decide (a ≤ b)
  | _, _ => false

/-- IEEE `<`: false whenever an operand is NaN. -/
def flt : FVal → FVal → Bool
  | some a, some b => decide (a < b)
  | _, _ => false

/-- IEEE `>=` (`x >= y` is `y <= x`); false whenever an operand is NaN. -/
def fge (a b : FVal) : Bool := fle b a

/-- IEEE `>`; false whenever an operand is NaN. -/
def fgt (a b : FVal) : Bool := flt b a

/-- Mirrors `f64::partial_cmp`: `none` (and hence a panic under `.unwrap()` in the
sort comparator) exactly when an operand is NaN. -/
def fcmp : FVal → FVal → Option Ordering
  | some a, some b => some (compare a b)
  | _, _ => none

/-- The struct `MarketData` as decoded from arbitrary host values: prices may be NaN. -/
structure MarketDataF where
  item_id : String
  item_name : String
  city : String
  buy_price : FVal
  sell_price : FVal
  quantity : ℕ

/-- The struct `TradeOpportunity` in the NaN-aware model. -/
structure TradeOpportunityF where
  item_id : String
  item_name : String
  buy_city : String
  sell_city : String
  buy_price : FVal
  sell_price : FVal
  quantity : ℕ
  profit : FVal
  roi : FVal
  taxes : FVal
  transport_cost : FVal

/-- The function `estimate_transport_cost` in the NaN-aware model (`quantity` comes from
a `u32`, so it is a finite rational). -/
def estimate_transport_cost_f (from_city to_city : String) (quantity : ℚ) : FVal :=
  some ((zone_distance from_city to_city : ℚ) * 100 * max (quantity / 100) 1)

/-- The function `calculate_opportunity` in the NaN-aware model, with the scanner rates
finite (they are the hard-coded 0.045 and 0.015). -/
def calculate_opportunity_f (market_tax setup_fee : ℚ)
    (item_id item_name buy_city sell_city : String)
    (buy_price sell_price : FVal) (quantity : ℕ) : TradeOpportunityF :=
  let qty : ℚ := (quantity : ℚ)
  let buy_total := fmul buy_price (some qty)
  let buy_taxes := fmul buy_total (some (market_tax + setup_fee))
  let transport_cost := estimate_transport_cost_f buy_city sell_city qty
  let total_cost := fadd (fadd buy_total buy_taxes) transport_cost
  let sell_total := fmul sell_price (some qty)
  let sell_taxes := fmul sell_total (some (market_tax + setup_fee))
  let net_revenue := fsub sell_total sell_taxes
  let profit := fsub net_revenue total_cost
  let roi := if fgt total_cost (some 0) then fmul (fdiv profit total_cost) (some 100)
             else some 0
  { item_id := item_id, item_name := item_name,
    buy_city := buy_city, sell_city := sell_city,
    buy_price := buy_price, sell_price := sell_price,
    quantity := quantity, profit := profit, roi := roi,
    taxes := fadd buy_taxes sell_taxes, transport_cost := transport_cost }

/-- The pair guards in the NaN-aware model: `buy_price <= 0.0` and
`sell_price <= 0.0` are IEEE comparisons, false on NaN (so NaN-priced
quotes are NOT skipped here, as in the Rust code). -/
def pairCandidate_f (market_tax setup_fee : ℚ) (item_id : String)
    (b sq : MarketDataF) : Option TradeOpportunityF :=
  if b.city = sq.city then none
  else if fle b.buy_price (some 0) ∨ fle sq.sell_price (some 0) then none
  else if min b.quantity sq.quantity = 0 then none
  else some (calculate_opportunity_f market_tax setup_fee item_id
      b.item_name b.city sq.city b.buy_price sq.sell_price
      (min b.quantity sq.quantity))

/-- Per-item grouping in the NaN-aware model. -/
def group_f (data : List MarketDataF) (item_id : String) : List MarketDataF :=
  data.filter fun d => d.item_id = item_id

/-- All evaluated opportunities in the NaN-aware model. -/
def candidates_f (market_tax setup_fee : ℚ) (data : List MarketDataF)
    (order : List String) : List TradeOpportunityF :=
  order.flatMap fun i =>
    (group_f data i).flatMap fun b =>
      (group_f data i).filterMap fun sq =>
        pairCandidate_f market_tax setup_fee i b sq

/-- The candidate list actually handed to the sort: conditional push of
candidates whose `roi >= min_roi` under the IEEE comparison. -/
def sortInput_f (market_tax setup_fee : ℚ) (data : List MarketDataF)
    (order : List String) (min_roi : FVal) : List TradeOpportunityF :=
  (candidates_f market_tax setup_fee data order).filter fun o => fge o.roi min_roi

/-! ### Helper lemmas -/

/-- Inverting a successful pair evaluation: all three guards passed and the
result is `calculate_opportunity` on the minimum quantity. -/
theorem pairCandidate_eq_some {s : TradeScanner} {item_id : String}
    {b sq : MarketData} {o : TradeOpportunity}
    (h : pairCandidate s item_id b sq = some o) :
    b.city ≠ sq.city ∧ 0 < b.buy_price ∧ 0 < sq.sell_price ∧
    0 < min b.quantity sq.quantity ∧
    o = s.calculate_opportunity item_id b.item_name b.city sq.city
        b.buy_price sq.sell_price (min b.quantity sq.quantity) := by
  unfold pairCandidate at h
  split at h
  · exact absurd h (by simp)
  · split at h
    · exact absurd h (by simp)
    · split at h
      · exact absurd h (by simp)
      · rename_i h1 h2 h3
        push_neg at h2
        refine ⟨h1, h2.1, h2.2, Nat.pos_of_ne_zero h3, ?_⟩
        exact (Option.some_injective _ h).symm

/-- Membership in the evaluated candidate list comes from two quotes of the
same item group. -/
theorem mem_candidates {s : TradeScanner} {data : List MarketData}
    {order : List String} {o : TradeOpportunity}
    (h : o ∈ candidates s data order) :
    ∃ i ∈ order, ∃ b ∈ group data i, ∃ sq ∈ group data i,
      pairCandidate s i b sq = some o := by
  unfold candidates candidatesFor at h
  rw [List.mem_flatMap] at h
  obtain ⟨i, hi, h⟩ := h
  rw [List.mem_flatMap] at h
  obtain ⟨b, hb, h⟩ := h
  rw [List.mem_filterMap] at h
  obtain ⟨sq, hsq, h⟩ := h
  exact ⟨i, hi, b, hb, sq, hsq, h⟩

/-- Quotes of a group are quotes of the data with the group's item id. -/
theorem mem_group {data : List MarketData} {i : String} {d : MarketData}
    (h : d ∈ group data i) : d ∈ data ∧ d.item_id = i := by
  unfold group at h
  rw [List.mem_filter] at h
  exact ⟨h.1, by simpa using h.2⟩

/-- The qualifying list: evaluated candidates that pass the roi filter. -/
def qualifying (s : TradeScanner) (data : List MarketData)
    (order : List String) (min_roi : ℚ) : List TradeOpportunity :=
  (candidates s data order).filter fun o => decide (min_roi ≤ o.roi)

/-- The scan is sort-then-truncate over the qualifying list. -/
theorem scan_eq_take_mergeSort (s : TradeScanner) (data : List MarketData)
    (order : List String) (min_roi : ℚ) (max_results : ℕ) :
    s.scan data order min_roi max_results =
      ((qualifying s data order min_roi).mergeSort roiDescLe).take max_results := rfl

/-- Everything returned by `scan` is a qualifying evaluated candidate. -/
theorem mem_of_mem_scan {s : TradeScanner} {data : List MarketData}
    {order : List String} {min_roi : ℚ} {max_results : ℕ} {o : TradeOpportunity}
    (h : o ∈ s.scan data order min_roi max_results) :
    o ∈ qualifying s data order min_roi := by
  rw [scan_eq_take_mergeSort] at h
  exact List.mem_mergeSort.mp (List.mem_of_mem_take h)

/-- The descending-roi comparator is transitive. -/
theorem roiDescLe_trans (a b c : TradeOpportunity) :
    roiDescLe a b = true → roiDescLe b c = true → roiDescLe a c = true := by
  simp only [roiDescLe, decide_eq_true_eq]
  exact fun h1 h2 => le_trans h2 h1

/-- The descending-roi comparator is total. -/
theorem roiDescLe_total (a b : TradeOpportunity) :
    (roiDescLe a b || roiDescLe b a) = true := by
  simp only [roiDescLe, Bool.or_eq_true, decide_eq_true_eq]
  exact le_total b.roi a.roi

/-- Every zone distance in the table is at least 8. -/
theorem zone_distance_ge_eight (a b : String) : 8 ≤ zone_distance a b := by
  unfold zone_distance
  split_ifs <;> norm_num

/-- The transport estimate never drops below `distance * 100`. -/
theorem estimate_transport_cost_ge (s : TradeScanner) (a b : String) (q : ℚ) :
    (zone_distance a b : ℚ) * 100 ≤ s.estimate_transport_cost a b q := by
  unfold TradeScanner.estimate_transport_cost
  have h1 : (1 : ℚ) ≤ max (q / 100) 1 := le_max_right _ _
  have h0 : (0 : ℚ) ≤ (zone_distance a b : ℚ) * 100 := by positivity
  calc (zone_distance a b : ℚ) * 100 = (zone_distance a b : ℚ) * 100 * 1 := by ring
    _ ≤ (zone_distance a b : ℚ) * 100 * max (q / 100) 1 :=
        mul_le_mul_of_nonneg_left h1 h0

/-- The transport estimate is at least 800. -/
theorem estimate_transport_cost_ge_800 (s : TradeScanner) (a b : String) (q : ℚ) :
    800 ≤ s.estimate_transport_cost a b q := by
  have h8 : (8 : ℚ) ≤ (zone_distance a b : ℚ) := by
    exact_mod_cast zone_distance_ge_eight a b
  have := estimate_transport_cost_ge s a b q
  nlinarith

/-! ### Shared concrete fixtures -/

/-- Scenario A, CityA side: buy price 100, quantity 50 (no sell quote). -/
def quoteA : MarketData :=
  { item_id := "X", item_name := "ItemX", city := "CityA",
    buy_price := 100, sell_price := 0, quantity := 50 }

/-- Scenario A, CityB side: sell price 150, quantity 30 (no buy quote). -/
def quoteB : MarketData :=
  { item_id := "X", item_name := "ItemX", city := "CityB",
    buy_price := 0, sell_price := 150, quantity := 30 }

/-- The Scenario A fixture. -/
def fixtureA : List MarketData := [quoteA, quoteB]

/-- The single evaluated candidate of Scenario A. -/
def oppX : TradeOpportunity :=
  TradeScanner.new.calculate_opportunity "X" "ItemX" "CityA" "CityB" 100 150 30

/-- Scenario A evaluates to exactly the one candidate `oppX`. -/
theorem candidates_fixtureA :
    candidates TradeScanner.new fixtureA ["X"] = [oppX] := by
  simp [candidates, candidatesFor, group, fixtureA, quoteA, quoteB, pairCandidate,
    oppX, List.filter, List.flatMap, List.filterMap]
  norm_num

/-- The Scenario A candidate passes a `-100` roi threshold. -/
theorem qualifying_fixtureA :
    qualifying TradeScanner.new fixtureA ["X"] (-100) = [oppX] := by
  rw [qualifying, candidates_fixtureA]
  simp [oppX, TradeScanner.calculate_opportunity, TradeScanner.estimate_transport_cost,
    zone_distance, TradeScanner.new]
  norm_num [max_def]

/-- With threshold `-100` the Scenario A scan returns the one candidate. -/
theorem scan_fixtureA_neg100 :
    TradeScanner.new.scan fixtureA ["X"] (-100) 10 = [oppX] := by
  rw [scan_eq_take_mergeSort, qualifying_fixtureA]
  simp

/-! ### C1 -/

/-- C1: every successfully evaluated (buy quote, sell quote) pair, with
`qty = min(buy quantity, sell quantity)`, satisfies the §4.2 cost model:
`buyTotal = buyPrice*qty`, `buyTaxes = buyTotal*(marketTaxRate+setupFeeRate)`,
`totalCost = buyTotal + buyTaxes + transportCost`, `sellTotal = sellPrice*qty`,
`sellTaxes = sellTotal*(marketTaxRate+setupFeeRate)`,
`profit = (sellTotal - sellTaxes) - totalCost`, `taxes = buyTaxes + sellTaxes`,
and `roi = (profit/totalCost)*100` when `totalCost > 0` and `0` otherwise. -/
theorem c1_cost_model (s : TradeScanner) (item_id : String)
    (b sq : MarketData) (o : TradeOpportunity)
    (h : pairCandidate s item_id b sq = some o) :
    o.quantity = min b.quantity sq.quantity ∧
    o.buy_price = b.buy_price ∧ o.sell_price = sq.sell_price ∧
    o.transport_cost =
      s.estimate_transport_cost b.city sq.city ((min b.quantity sq.quantity : ℕ) : ℚ) ∧
    o.profit =
      (sq.sell_price * ((min b.quantity sq.quantity : ℕ) : ℚ) -
        sq.sell_price * ((min b.quantity sq.quantity : ℕ) : ℚ) *
          (s.market_tax + s.setup_fee)) -
      (b.buy_price * ((min b.quantity sq.quantity : ℕ) : ℚ) +
        b.buy_price * ((min b.quantity sq.quantity : ℕ) : ℚ) *
          (s.market_tax + s.setup_fee) +
        o.transport_cost) ∧
    o.taxes =
      b.buy_price * ((min b.quantity sq.quantity : ℕ) : ℚ) *
          (s.market_tax + s.setup_fee) +
        sq.sell_price * ((min b.quantity sq.quantity : ℕ) : ℚ) *
          (s.market_tax + s.setup_fee) ∧
    o.roi =
      (if 0 < b.buy_price * ((min b.quantity sq.quantity : ℕ) : ℚ) +
            b.buy_price * ((min b.quantity sq.quantity : ℕ) : ℚ) *
              (s.market_tax + s.setup_fee) +
            o.transport_cost
        then o.profit /
            (b.buy_price * ((min b.quantity sq.quantity : ℕ) : ℚ) +
              b.buy_price * ((min b.quantity sq.quantity : ℕ) : ℚ) *
                (s.market_tax + s.setup_fee) +
              o.transport_cost) * 100
        else 0) := by
  obtain ⟨-, -, -, -, rfl⟩ := pairCandidate_eq_some h
  refine ⟨rfl, rfl, rfl, rfl, ?_, ?_, ?_⟩ <;>
    simp only [TradeScanner.calculate_opportunity]

/-- Witness for C1 at the Scenario A pair. -/
theorem c1_cost_model_witness :
    pairCandidate TradeScanner.new "X" quoteA quoteB = some oppX ∧
    oppX.quantity = min quoteA.quantity quoteB.quantity := by
  have hp : pairCandidate TradeScanner.new "X" quoteA quoteB = some oppX := by
    simp [pairCandidate, quoteA, quoteB, oppX]
  exact ⟨hp, (c1_cost_model TradeScanner.new "X" quoteA quoteB oppX hp).1⟩

/-! ### C7 and C8 -/

/-- C7: for every city pair and quantity `q ≥ 0` the transport estimate is
`distance * 100 * max(q/100, 1)` with the distance from the fixed table
(fallback for unlisted pairs built into `zone_distance`); it never drops
below the flat cost `distance * 100` and is non-decreasing in `q`. -/
theorem c7_transport_cost (s : TradeScanner) (a b : String) (q : ℚ)
    (_hq : 0 ≤ q) :
    s.estimate_transport_cost a b q =
      (zone_distance a b : ℚ) * 100 * max (q / 100) 1 ∧
    (zone_distance a b : ℚ) * 100 ≤ s.estimate_transport_cost a b q ∧
    (∀ q', q ≤ q' → s.estimate_transport_cost a b q ≤
        s.estimate_transport_cost a b q') := by
  refine ⟨rfl, estimate_transport_cost_ge s a b q, ?_⟩
  intro q' hqq
  unfold TradeScanner.estimate_transport_cost
  have hmax : max (q / 100) 1 ≤ max (q' / 100) 1 :=
    max_le_max (by linarith) le_rfl
  have h0 : (0 : ℚ) ≤ (zone_distance a b : ℚ) * 100 := by positivity
  exact mul_le_mul_of_nonneg_left hmax h0

/-- Witness for C7 at the Scenario A pair and quantities 30 ≤ 300. -/
theorem c7_transport_cost_witness :
    TradeScanner.new.estimate_transport_cost "CityA" "CityB" 30 ≤
      TradeScanner.new.estimate_transport_cost "CityA" "CityB" 300 :=
  (c7_transport_cost TradeScanner.new "CityA" "CityB" 30 (by norm_num)).2.2
    300 (by norm_num)

/-- C8: the transport estimate is symmetric in its two city arguments. -/
theorem c8_transport_symmetric (s : TradeScanner) (a b : String) (q : ℚ) :
    s.estimate_transport_cost a b q = s.estimate_transport_cost b a q := by
  have hz : zone_distance b a = zone_distance a b := by
    have swap : ∀ X Y : String,
        ((b = X ∧ a = Y) ∨ (b = Y ∧ a = X)) ↔
        ((a = X ∧ b = Y) ∨ (a = Y ∧ b = X)) := by tauto
    unfold zone_distance
    simp only [swap]
  unfold TradeScanner.estimate_transport_cost
  rw [hz]

/-! ### C9 -/

/-- C9: `scan_opportunities` fails exactly when the input snapshot fails to
decode (reported before any computation) or the computed result fails to
encode; degenerate quote pairs (same city, non-positive price on the used
side, zero minimum quantity) are silently excluded, never an error. -/
theorem c9_error_taxonomy {ε : Type} (s : TradeScanner)
    (input : Except String (List MarketData)) (order : List String)
    (min_roi : ℚ) (max_results : ℕ)
    (encode : List TradeOpportunity → Except String ε) :
    ((∃ e, s.scan_opportunities input order min_roi max_results encode =
        .error e) ↔
      (∃ e, input = .error e) ∨
      (∃ data e, input = .ok data ∧
        encode (s.scan data order min_roi max_results) = .error e)) ∧
    (∀ item_id b sq,
      (b.city = sq.city ∨ b.buy_price ≤ 0 ∨ sq.sell_price ≤ 0 ∨
        min b.quantity sq.quantity = 0) →
      pairCandidate s item_id b sq = none) := by
  constructor
  · cases input with
    | error e => simp [TradeScanner.scan_opportunities]
    | ok data =>
      cases henc : encode (s.scan data order min_roi max_results) with
      | error e => simp [TradeScanner.scan_opportunities, henc]
      | ok v => simp [TradeScanner.scan_opportunities, henc]
  · intro item_id b sq h
    unfold pairCandidate
    split_ifs <;> first | rfl | tauto

/-- Witness for C9: a quote with buy price 0 is silently excluded as a buy
side in the (CityB, CityA) direction of the Scenario A fixture. -/
theorem c9_error_taxonomy_witness :
    pairCandidate TradeScanner.new "X" quoteB quoteA = none :=
  (c9_error_taxonomy (ε := List TradeOpportunity) TradeScanner.new
      (.ok fixtureA) ["X"] 0 10 (fun l => .ok l)).2 "X" quoteB quoteA
    (Or.inr (Or.inl (by norm_num [quoteB])))

/-! ### C4 -/

/-- C4: every opportunity returned by the scan pairs two quotes of the same
item in different cities, with positive buy and sell prices on the used
sides and quantity the minimum of the two quoted quantities (hence
positive); non-positively priced quotes are never used on the
corresponding side. -/
theorem c4_invariant (s : TradeScanner) (data : List MarketData)
    (order : List String) (min_roi : ℚ) (max_results : ℕ)
    (o : TradeOpportunity)
    (h : o ∈ s.scan data order min_roi max_results) :
    o.buy_city ≠ o.sell_city ∧ 0 < o.buy_price ∧ 0 < o.sell_price ∧
    0 < o.quantity ∧
    ∃ b ∈ data, ∃ sq ∈ data,
      b.item_id = sq.item_id ∧ b.city ≠ sq.city ∧
      0 < b.buy_price ∧ 0 < sq.sell_price ∧
      o.buy_city = b.city ∧ o.sell_city = sq.city ∧
      o.buy_price = b.buy_price ∧ o.sell_price = sq.sell_price ∧
      o.quantity = min b.quantity sq.quantity := by
  have hqual := mem_of_mem_scan h
  rw [qualifying, List.mem_filter] at hqual
  obtain ⟨i, _hi, b, hb, sq, hsq, hpc⟩ := mem_candidates hqual.1
  obtain ⟨hb1, hbid⟩ := mem_group hb
  obtain ⟨hsq1, hsqid⟩ := mem_group hsq
  obtain ⟨hcity, hbp, hsp, hqty, rfl⟩ := pairCandidate_eq_some hpc
  simp only [TradeScanner.calculate_opportunity]
  exact ⟨hcity, hbp, hsp, hqty, b, hb1, sq, hsq1, hbid.trans hsqid.symm,
    hcity, hbp, hsp, rfl, rfl, rfl, rfl, rfl⟩

/-- Witness for C4 at the Scenario A scan with threshold `-100`. -/
theorem c4_invariant_witness :
    oppX ∈ TradeScanner.new.scan fixtureA ["X"] (-100) 10 ∧
    oppX.buy_city ≠ oppX.sell_city := by
  have hmem : oppX ∈ TradeScanner.new.scan fixtureA ["X"] (-100) 10 := by
    rw [scan_fixtureA_neg100]; exact List.mem_singleton.mpr rfl
  exact ⟨hmem,
    (c4_invariant TradeScanner.new fixtureA ["X"] (-100) 10 oppX hmem).1⟩

/-! ### C10 -/

/-- C10: every evaluated candidate of the default scanner has transport
cost at least 800 (table distances are at least 8 zones, weight factor at
least 1), hence strictly positive total cost, so the `roi = 0` fallback
for zero total cost is unreachable and `roi = (profit/totalCost)*100`. -/
theorem c10_roi_branch (data : List MarketData) (order : List String)
    (o : TradeOpportunity)
    (h : o ∈ candidates TradeScanner.new data order) :
    800 ≤ o.transport_cost ∧
    0 < o.buy_price * (o.quantity : ℚ) +
        o.buy_price * (o.quantity : ℚ) *
          (TradeScanner.new.market_tax + TradeScanner.new.setup_fee) +
        o.transport_cost ∧
    o.roi = o.profit /
        (o.buy_price * (o.quantity : ℚ) +
          o.buy_price * (o.quantity : ℚ) *
            (TradeScanner.new.market_tax + TradeScanner.new.setup_fee) +
          o.transport_cost) * 100 := by
  obtain ⟨i, _hi, b, _hb, sq, _hsq, hpc⟩ := mem_candidates h
  obtain ⟨_hcity, hbp, _hsp, hqty, rfl⟩ := pairCandidate_eq_some hpc
  simp only [TradeScanner.calculate_opportunity]
  have h800 := estimate_transport_cost_ge_800 TradeScanner.new b.city sq.city
    ((min b.quantity sq.quantity : ℕ) : ℚ)
  have hqpos : (0 : ℚ) < ((min b.quantity sq.quantity : ℕ) : ℚ) := by
    exact_mod_cast hqty
  have hbt : 0 < b.buy_price * ((min b.quantity sq.quantity : ℕ) : ℚ) :=
    mul_pos hbp hqpos
  have hrate : (0 : ℚ) ≤ TradeScanner.new.market_tax + TradeScanner.new.setup_fee := by
    norm_num [TradeScanner.new]
  have htax : 0 ≤ b.buy_price * ((min b.quantity sq.quantity : ℕ) : ℚ) *
      (TradeScanner.new.market_tax + TradeScanner.new.setup_fee) :=
    mul_nonneg hbt.le hrate
  have htotal : 0 < b.buy_price * ((min b.quantity sq.quantity : ℕ) : ℚ) +
      b.buy_price * ((min b.quantity sq.quantity : ℕ) : ℚ) *
        (TradeScanner.new.market_tax + TradeScanner.new.setup_fee) +
      TradeScanner.new.estimate_transport_cost b.city sq.city
        ((min b.quantity sq.quantity : ℕ) : ℚ) := by linarith
  exact ⟨h800, htotal, by rw [if_pos htotal]⟩

/-- Witness for C10 at the Scenario A candidate. -/
theorem c10_roi_branch_witness :
    oppX ∈ candidates TradeScanner.new fixtureA ["X"] ∧
    800 ≤ oppX.transport_cost := by
  have hmem : oppX ∈ candidates TradeScanner.new fixtureA ["X"] := by
    rw [candidates_fixtureA]; exact List.mem_singleton.mpr rfl
  exact ⟨hmem, (c10_roi_branch fixtureA ["X"] oppX hmem).1⟩

/-! ### C2 -/

/-- C2: the scan output consists exactly of evaluated opportunities whose
roi meets the threshold, in descending roi order (adjacent pairs), with
length `min maxResults (number of qualifying opportunities)`; when fewer
than `maxResults` qualify, the output is all of them (up to order, a
permutation of the qualifying list). -/
theorem c2_ranker (s : TradeScanner) (data : List MarketData)
    (order : List String) (min_roi : ℚ) (max_results : ℕ) :
    (∀ o ∈ s.scan data order min_roi max_results,
        o ∈ candidates s data order ∧ min_roi ≤ o.roi) ∧
    (∀ i, (hi : i + 1 < (s.scan data order min_roi max_results).length) →
        ((s.scan data order min_roi max_results).get ⟨i + 1, hi⟩).roi ≤
        ((s.scan data order min_roi max_results).get
            ⟨i, Nat.lt_of_succ_lt hi⟩).roi) ∧
    (s.scan data order min_roi max_results).length =
        min max_results (qualifying s data order min_roi).length ∧
    ((qualifying s data order min_roi).length ≤ max_results →
        (s.scan data order min_roi max_results).Perm
          (qualifying s data order min_roi)) := by
  refine ⟨?_, ?_, ?_, ?_⟩
  · intro o ho
    have hq := mem_of_mem_scan ho
    rw [qualifying, List.mem_filter] at hq
    exact ⟨hq.1, by simpa using hq.2⟩
  · intro i hi
    have hsorted : (s.scan data order min_roi max_results).Pairwise
        (fun a b => roiDescLe a b = true) := by
      rw [scan_eq_take_mergeSort]
      exact List.Pairwise.sublist (List.take_sublist _ _)
        (List.sorted_mergeSort roiDescLe_trans roiDescLe_total
          (qualifying s data order min_roi))
    have := (List.pairwise_iff_getElem.mp hsorted) i (i + 1)
      (Nat.lt_of_succ_lt hi) hi (Nat.lt_succ_self i)
    simpa [roiDescLe, List.get_eq_getElem] using this
  · rw [scan_eq_take_mergeSort, List.length_take, List.length_mergeSort]
  · intro hlen
    rw [scan_eq_take_mergeSort,
      List.take_of_length_le (by simpa using hlen)]
    exact List.mergeSort_perm _ _

/-- Witness for C2 at the Scenario A scan with threshold `-100`. -/
theorem c2_ranker_witness :
    oppX ∈ candidates TradeScanner.new fixtureA ["X"] ∧ (-100 : ℚ) ≤ oppX.roi := by
  have hmem : oppX ∈ TradeScanner.new.scan fixtureA ["X"] (-100) 10 := by
    rw [scan_fixtureA_neg100]; exact List.mem_singleton.mpr rfl
  exact (c2_ranker TradeScanner.new fixtureA ["X"] (-100) 10).1 oppX hmem

/-! ### C5 -/

/-- C5: for arbitrary (possibly NaN-valued) decoded prices, no opportunity
with a NaN roi ever reaches the sorting step: a NaN roi fails the IEEE
`roi >= minRoi` filter, so every element of the list handed to the sort
has a comparable roi and the sort comparator
(`partial_cmp(..).unwrap()`) never fails on it. -/
theorem c5_nan_filtered (market_tax setup_fee : ℚ) (data : List MarketDataF)
    (order : List String) (min_roi : FVal) :
    (∀ o ∈ sortInput_f market_tax setup_fee data order min_roi,
        o.roi ≠ FVal.nan) ∧
    (∀ o1 ∈ sortInput_f market_tax setup_fee data order min_roi,
     ∀ o2 ∈ sortInput_f market_tax setup_fee data order min_roi,
        (fcmp o2.roi o1.roi).isSome = true) := by
  have key : ∀ o ∈ sortInput_f market_tax setup_fee data order min_roi,
      o.roi ≠ FVal.nan := by
    intro o ho hnan
    rw [sortInput_f, List.mem_filter] at ho
    have hge := ho.2
    rw [hnan] at hge
    rw [fge] at hge
    cases min_roi with
    | none => simp [fle] at hge
    | some q => simp [FVal.nan, fle] at hge
  refine ⟨key, ?_⟩
  intro o1 h1 o2 h2
  have h1' : (o1.roi : Option ℚ) ≠ none := key o1 h1
  have h2' : (o2.roi : Option ℚ) ≠ none := key o2 h2
  obtain ⟨q1, hq1⟩ := Option.ne_none_iff_exists'.mp h1'
  obtain ⟨q2, hq2⟩ := Option.ne_none_iff_exists'.mp h2'
  show (fcmp o2.roi o1.roi).isSome = true
  rw [hq1, hq2]
  rfl

/-- NaN fixture: a valid buy quote, a sell quote with NaN sell price, and a
valid sell quote, all for one item. -/
def quoteAF : MarketDataF :=
  { item_id := "X", item_name := "ItemX", city := "CityA",
    buy_price := FVal.fin 100, sell_price := FVal.fin 0, quantity := 50 }

/-- Quote whose sell price decoded to NaN. -/
def quoteNF : MarketDataF :=
  { item_id := "X", item_name := "ItemX", city := "CityB",
    buy_price := FVal.fin 0, sell_price := FVal.nan, quantity := 30 }

/-- A well-formed sell quote in a third city. -/
def quoteCF : MarketDataF :=
  { item_id := "X", item_name := "ItemX", city := "CityC",
    buy_price := FVal.fin 0, sell_price := FVal.fin 150, quantity := 30 }

/-- The NaN fixture list. -/
def fixtureF : List MarketDataF := [quoteAF, quoteNF, quoteCF]

/-- The evaluated candidate with a NaN roi (sell leg is NaN). -/
def oppNF : TradeOpportunityF :=
  calculate_opportunity_f (45/1000) (15/1000) "X" "ItemX" "CityA" "CityB"
    (FVal.fin 100) FVal.nan 30

/-- The well-formed evaluated candidate of the NaN fixture. -/
def oppCF : TradeOpportunityF :=
  calculate_opportunity_f (45/1000) (15/1000) "X" "ItemX" "CityA" "CityC"
    (FVal.fin 100) (FVal.fin 150) 30

/-- On the NaN fixture, both pairs are evaluated, but only the candidate
with a comparable roi survives the `roi >= minRoi` filter: the NaN-roi
candidate never reaches the sort. -/
theorem sortInput_fixtureF :
    candidates_f (45/1000) (15/1000) fixtureF ["X"] = [oppNF, oppCF] ∧
    oppNF.roi = FVal.nan ∧
    sortInput_f (45/1000) (15/1000) fixtureF ["X"] (FVal.fin (-100)) = [oppCF] := by
  have hc : candidates_f (45/1000) (15/1000) fixtureF ["X"] = [oppNF, oppCF] := by
    simp [candidates_f, group_f, fixtureF, quoteAF, quoteNF, quoteCF,
      pairCandidate_f, oppNF, oppCF, FVal.fin, FVal.nan, fle,
      List.filter, List.flatMap, List.filterMap]
    norm_num
  have hnan : oppNF.roi = FVal.nan := by
    simp [oppNF, calculate_opportunity_f, estimate_transport_cost_f,
      zone_distance, fadd, fmul, fsub, fdiv, fgt, flt, FVal.fin, FVal.nan]
    norm_num [max_def]
  have hroiC : oppCF.roi = FVal.fin (-250/73) := by
    simp [oppCF, calculate_opportunity_f, estimate_transport_cost_f,
      zone_distance, fadd, fmul, fsub, fdiv, fgt, flt, FVal.fin, FVal.nan]
    norm_num [max_def]
  refine ⟨hc, hnan, ?_⟩
  rw [sortInput_f, hc]
  simp [List.filter, fge, fle, hnan, hroiC, FVal.fin, FVal.nan]
  norm_num

/-- Witness for C5 at the NaN fixture: the surviving candidate has a
comparable roi. -/
theorem c5_nan_filtered_witness :
    oppCF ∈ sortInput_f (45/1000) (15/1000) fixtureF ["X"] (FVal.fin (-100)) ∧
    oppCF.roi ≠ FVal.nan := by
  have hmem : oppCF ∈ sortInput_f (45/1000) (15/1000) fixtureF ["X"]
      (FVal.fin (-100)) := by
    rw [sortInput_fixtureF.2.2]; exact List.mem_singleton.mpr rfl
  exact ⟨hmem,
    (c5_nan_filtered (45/1000) (15/1000) fixtureF ["X"] (FVal.fin (-100))).1
      oppCF hmem⟩

/-! ### C3 -/

/-- C3 counterexample: on the Scenario A fixture (CityA buy 100/qty 50,
CityB sell 150/qty 30, rates 4.5% and 1.5%, minRoi 0) the scan returns NO
opportunity — not one: the only candidate is unprofitable once the 1200
transport cost is included, so it fails the `roi >= 0` filter. -/
theorem c3_scenario_a_counterexample :
    itemKeys fixtureA = ["X"] ∧
    TradeScanner.new.scan fixtureA ["X"] 0 10 = [] := by
  constructor
  · simp [itemKeys, fixtureA, quoteA, quoteB, List.dedup]
  · rw [scan_eq_take_mergeSort]
    have hq : qualifying TradeScanner.new fixtureA ["X"] 0 = [] := by
      rw [qualifying, candidates_fixtureA]
      simp [oppX, TradeScanner.calculate_opportunity,
        TradeScanner.estimate_transport_cost, zone_distance, TradeScanner.new]
      norm_num [max_def]
    rw [hq]
    simp

/-- C3 (amended): on the Scenario A fixture the single evaluated candidate
has quantity 30 but profit −150 (revenue 4230 net of sell-side charges
versus cost 3000 + 180 + 1200 transport) and roi −250/73 ≈ −3.42% < 0, so
the minRoi = 0 scan returns no opportunities. -/
theorem c3_scenario_a :
    candidates TradeScanner.new fixtureA ["X"] = [oppX] ∧
    oppX.quantity = 30 ∧
    oppX.profit = -150 ∧
    oppX.transport_cost = 1200 ∧
    oppX.roi = -250/73 ∧
    oppX.roi < 0 ∧
    TradeScanner.new.scan fixtureA ["X"] 0 10 = [] := by
  refine ⟨candidates_fixtureA, rfl, ?_, ?_, ?_, ?_, ?_⟩
  · simp [oppX, TradeScanner.calculate_opportunity,
      TradeScanner.estimate_transport_cost, zone_distance, TradeScanner.new]
    norm_num [max_def]
  · simp [oppX, TradeScanner.calculate_opportunity,
      TradeScanner.estimate_transport_cost, zone_distance, TradeScanner.new]
    norm_num [max_def]
  · simp [oppX, TradeScanner.calculate_opportunity,
      TradeScanner.estimate_transport_cost, zone_distance, TradeScanner.new]
    norm_num [max_def]
  · simp [oppX, TradeScanner.calculate_opportunity,
      TradeScanner.estimate_transport_cost, zone_distance, TradeScanner.new]
    norm_num [max_def]
  · rw [scan_eq_take_mergeSort]
    have hq : qualifying TradeScanner.new fixtureA ["X"] 0 = [] := by
      rw [qualifying, candidates_fixtureA]
      simp [oppX, TradeScanner.calculate_opportunity,
        TradeScanner.estimate_transport_cost, zone_distance, TradeScanner.new]
      norm_num [max_def]
    rw [hq]
    simp

/-! ### C6 -/

/-- Two items with numerically identical quotes: their single candidates
have exactly equal roi. -/
def dataC6 : List MarketData :=
  [ { item_id := "A", item_name := "ItemA", city := "X",
      buy_price := 100, sell_price := 0, quantity := 10 },
    { item_id := "A", item_name := "ItemA", city := "Y",
      buy_price := 0, sell_price := 150, quantity := 10 },
    { item_id := "B", item_name := "ItemB", city := "X",
      buy_price := 100, sell_price := 0, quantity := 10 },
    { item_id := "B", item_name := "ItemB", city := "Y",
      buy_price := 0, sell_price := 150, quantity := 10 } ]

/-- The candidate of item A. -/
def oppA6 : TradeOpportunity :=
  TradeScanner.new.calculate_opportunity "A" "ItemA" "X" "Y" 100 150 10

/-- The candidate of item B (same numbers, different item). -/
def oppB6 : TradeOpportunity :=
  TradeScanner.new.calculate_opportunity "B" "ItemB" "X" "Y" 100 150 10

/-- Qualifying list of `dataC6` when item A is iterated first. -/
theorem qualifying_dataC6_AB :
    qualifying TradeScanner.new dataC6 ["A", "B"] (-100) = [oppA6, oppB6] := by
  simp [qualifying, candidates, candidatesFor, group, dataC6, pairCandidate,
    oppA6, oppB6, List.filter, List.flatMap, List.filterMap,
    TradeScanner.calculate_opportunity, TradeScanner.estimate_transport_cost,
    zone_distance, TradeScanner.new]
  norm_num [max_def]

/-- Qualifying list of `dataC6` when item B is iterated first. -/
theorem qualifying_dataC6_BA :
    qualifying TradeScanner.new dataC6 ["B", "A"] (-100) = [oppB6, oppA6] := by
  simp [qualifying, candidates, candidatesFor, group, dataC6, pairCandidate,
    oppA6, oppB6, List.filter, List.flatMap, List.filterMap,
    TradeScanner.calculate_opportunity, TradeScanner.estimate_transport_cost,
    zone_distance, TradeScanner.new]
  norm_num [max_def]

/-- The two equal-roi candidates are already sorted in either order. -/
theorem pairwise_dataC6 :
    List.Pairwise (fun a b => roiDescLe a b = true) [oppA6, oppB6] ∧
    List.Pairwise (fun a b => roiDescLe a b = true) [oppB6, oppA6] := by
  constructor <;>
  · simp [roiDescLe, oppA6, oppB6, TradeScanner.calculate_opportunity,
      TradeScanner.estimate_transport_cost, zone_distance, TradeScanner.new]

/-- C6 counterexample: two invocations on the same input, differing only
in the (unspecified) `HashMap` item iteration order, return different
output sequences: with two equal-roi opportunities the stable sort keeps
discovery order, which depends on the iteration order. -/
theorem c6_counterexample :
    (["A", "B"] : List String).Perm (itemKeys dataC6) ∧
    (["B", "A"] : List String).Perm (itemKeys dataC6) ∧
    TradeScanner.new.scan dataC6 ["A", "B"] (-100) 10 ≠
      TradeScanner.new.scan dataC6 ["B", "A"] (-100) 10 := by
  have hkeys : itemKeys dataC6 = ["A", "B"] := by
    simp [itemKeys, dataC6, List.dedup]
    decide
  refine ⟨by rw [hkeys], by rw [hkeys]; exact List.Perm.swap "A" "B" [], ?_⟩
  have h1 : TradeScanner.new.scan dataC6 ["A", "B"] (-100) 10 = [oppA6, oppB6] := by
    rw [scan_eq_take_mergeSort, qualifying_dataC6_AB,
      List.mergeSort_of_sorted pairwise_dataC6.1]
    simp
  have h2 : TradeScanner.new.scan dataC6 ["B", "A"] (-100) 10 = [oppB6, oppA6] := by
    rw [scan_eq_take_mergeSort, qualifying_dataC6_BA,
      List.mergeSort_of_sorted pairwise_dataC6.2]
    simp
  rw [h1, h2]
  simp [oppA6, oppB6, TradeScanner.calculate_opportunity]

/-- C6 (amended): for a fixed item iteration order the scan is a pure
function of its inputs, and equal-roi opportunities keep their discovery
order (stable sort); across two iteration orders that are permutations of
each other the outputs agree only as multisets (shown here without
truncation), not necessarily as sequences. -/
theorem c6_determinism (s : TradeScanner) (data : List MarketData)
    (order₁ order₂ : List String) (min_roi : ℚ) (max_results : ℕ)
    (hperm : order₁.Perm order₂)
    (hlen : (qualifying s data order₁ min_roi).length ≤ max_results) :
    (s.scan data order₁ min_roi max_results).Perm
      (s.scan data order₂ min_roi max_results) ∧
    (∀ a b : TradeOpportunity,
      [a, b].Sublist (qualifying s data order₁ min_roi) →
      roiDescLe a b = true →
      [a, b].Sublist (s.scan data order₁ min_roi max_results)) := by
  have hqperm : (qualifying s data order₁ min_roi).Perm
      (qualifying s data order₂ min_roi) := by
    unfold qualifying candidates
    exact (hperm.flatMap_right _).filter _
  have hlen₂ : (qualifying s data order₂ min_roi).length ≤ max_results := by
    rw [← hqperm.length_eq]; exact hlen
  have e₁ : s.scan data order₁ min_roi max_results =
      (qualifying s data order₁ min_roi).mergeSort roiDescLe := by
    rw [scan_eq_take_mergeSort]
    exact List.take_of_length_le (by simpa using hlen)
  have e₂ : s.scan data order₂ min_roi max_results =
      (qualifying s data order₂ min_roi).mergeSort roiDescLe := by
    rw [scan_eq_take_mergeSort]
    exact List.take_of_length_le (by simpa using hlen₂)
  constructor
  · rw [e₁, e₂]
    exact ((List.mergeSort_perm _ _).trans hqperm).trans
      (List.mergeSort_perm _ _).symm
  · intro a b hsub hle
    rw [e₁]
    exact List.pair_sublist_mergeSort roiDescLe_trans roiDescLe_total hle hsub

/-- Witness for C6 (amended) at the two iteration orders of `dataC6`. -/
theorem c6_determinism_witness :
    (TradeScanner.new.scan dataC6 ["A", "B"] (-100) 10).Perm
      (TradeScanner.new.scan dataC6 ["B", "A"] (-100) 10) :=
  (c6_determinism TradeScanner.new dataC6 ["A", "B"] ["B", "A"] (-100) 10
    (List.Perm.swap "B" "A" [])
    (by rw [qualifying_dataC6_AB]; norm_num)).1
